import Mathlib

/-!
Verification development for the jello core (`jello/lib.py`): a shallow
embedding of the schema flattener (`Schema.create_schema` / `Schema._schema_gen`)
and the multi-mode serializer (`Json.create_json`), together with theorems
settling the specification's claims about them.

Machine strings are Lean `String`s (sequences of Unicode code points, matching
Python's `str` and `len`). Fallible code paths (Python exceptions raised by
`json.dumps` on non-serializable values, and the explicit `ValueError` /
`TypeError` raises in `create_json`) are embedded as `Except`.
-/

namespace Jello

/-- The decoded value tree that both core components consume: the JSON value
model plus `foreign`, standing for any Python object outside the model (a
non-serializable value produced by the external query step). -/
inductive Value where
  | null
  | bool (b : Bool)
  | num (i : Int)
  | str (s : String)
  | arr (items : List Value)
  | obj (members : List (String × Value))
  | foreign

/-- `' ' * n` (Python string repetition used for alignment padding). -/
def spaces (n : Nat) : String :=
  String.mk (List.replicate n ' ')

/-- Python `str(i)` for an `int`: a minus sign for negatives followed by the
decimal digits. This is also the text `json.dumps` emits for an `int`. -/
def intStr (i : Int) : String :=
  if i < 0 then "-" ++ Nat.repr i.natAbs else Nat.repr i.natAbs

/-- Lower-case hexadecimal digit, for `\u00XX` escapes. -/
def hexDigit (n : Nat) : Char :=
  if n < 10 then Char.ofNat (48 + n) else Char.ofNat (87 + n)

/-- JSON escaping of one character, as performed by Python's
`json.dumps(..., ensure_ascii=False)`: the two-character escapes for quote,
backslash and the common control characters, `\u00XX` for the remaining
control characters, and every other character unchanged. -/
def escapeChar (c : Char) : List Char :=
  if c = '"' then ['\\', '"']
  else if c = '\\' then ['\\', '\\']
  else if c = '\n' then ['\\', 'n']
  else if c = '\t' then ['\\', 't']
  else if c = '\r' then ['\\', 'r']
  else if c = Char.ofNat 8 then ['\\', 'b']
  else if c = Char.ofNat 12 then ['\\', 'f']
  else if c.toNat < 32 then ['\\', 'u', '0', '0', hexDigit (c.toNat / 16), hexDigit (c.toNat % 16)]
  else [c]

/-- Body of a JSON string literal for `s` (everything between the quotes). -/
def jsonEscape (s : String) : String :=
  String.mk (s.data.flatMap escapeChar)

/-- Python `s.replace('\n', '\\n')`: every literal newline becomes the
two-character sequence backslash-n (`create_json` applies this to strings). -/
def replace_nl (s : String) : String :=
  String.mk (s.data.flatMap (fun c => if c = '\n' then ['\\', 'n'] else [c]))

/-- Python `str.rstrip()`: drop trailing whitespace characters. -/
def pyRstrip (s : String) : String :=
  String.mk ((s.data.reverse.dropWhile
    (fun c => c = ' ' || c = '\n' || c = '\t' || c = '\r' ||
              c = Char.ofNat 11 || c = Char.ofNat 12)).reverse)

/-- Remove the first `'.'` of a character list, keeping everything else. -/
def removeFirstDotAux : List Char → List Char
  | [] => []
  | c :: cs => if c = '.' then cs else c :: removeFirstDotAux cs

/-- Python `s.replace('.', '', 1)`: delete at most one (the first) dot. -/
def removeFirstDot (s : String) : String :=
  String.mk (removeFirstDotAux s.data)

/-- Python `str.isdigit()` on the texts arising here: non-empty and all
characters decimal digits. -/
def pyIsdigit (s : String) : Bool :=
  !s.data.isEmpty && s.data.all (fun c => c.isDigit)

/-- The type-comment classification in `Schema._schema_gen`, operating on the
rendered JSON literal text `val` (lines 172-179 and 192-199 of `lib.py`). -/
def val_type (val : String) : String :=
  if val = "true" || val = "false" then "// (boolean)"
  else if val = "null" then "// (null)"
  else if pyIsdigit (removeFirstDot val) then "// (number)"
  else "// (string)"

/-- One schema line for a scalar object member (`lib.py` lines 166-185):
`f'{path}.{k} = {val};{padding}{val_type}'`. The padding is computed only
when `types` is set: right-align at the 69 budget when the length sum is
below 70, otherwise a two-space separator. -/
def memberLine (types : Bool) (path k val : String) : String :=
  let vt := if types then val_type val else ""
  let padding :=
    if types then
      if path.length + k.length + val.length + vt.length < 70 then
        spaces (69 - (path.length + k.length + val.length + vt.length))
      else "  "
    else ""
  path ++ "." ++ k ++ " = " ++ val ++ ";" ++ padding ++ vt

/-- One schema line for a terminal (root or array-element) scalar
(`lib.py` lines 187-207): `f'{path} = {val};{padding}{val_type}'` with the
path defaulted to `"."` when empty. Note that, unlike the member-line case,
the padding assignment sits outside the `types` conditional in the source,
so the padding is computed whether or not `types` is set. -/
def scalarLine (types : Bool) (path0 val : String) : String :=
  let vt := if types then val_type val else ""
  let path := if path0 = "" then "." else path0
  let padding :=
    if path.length + val.length + vt.length < 70 then
      spaces (70 - (path.length + val.length + vt.length))
    else "  "
  path ++ " = " ++ val ++ ";" ++ padding ++ vt

/-- Is this value a Python `list` (the `isinstance(item, list)` test)? -/
def isArr : Value → Bool
  | .arr _ => true
  | _ => false

mutual

/-- A value is serializable when every component lies inside the JSON value
model, i.e. no `foreign` occurs anywhere in the tree. -/
def serializable : Value → Bool
  | .null => true
  | .bool _ => true
  | .num _ => true
  | .str _ => true
  | .arr items => serializableList items
  | .obj members => serializableObj members
  | .foreign => false

def serializableList : List Value → Bool
  | [] => true
  | v :: rest => serializable v && serializableList rest

def serializableObj : List (String × Value) → Bool
  | [] => true
  | (_, v) :: rest => serializable v && serializableObj rest

end

mutual

/-- Number of leaf nodes (scalars and nulls) reachable by depth-first
traversal; empty arrays and objects contain none. -/
def countLeaves : Value → Nat
  | .arr items => countLeavesList items
  | .obj members => countLeavesObj members
  | _ => 1

def countLeavesList : List Value → Nat
  | [] => 0
  | v :: rest => countLeaves v + countLeavesList rest

def countLeavesObj : List (String × Value) → Nat
  | [] => 0
  | (_, v) :: rest => countLeaves v + countLeavesObj rest

end

/-- Model of Python `repr` escaping inside a single-quoted string literal
(backslash, quote, and the common control characters; other characters kept).
Only ever used to build schema *paths* for arrays nested directly inside
arrays, via the f-string `f'{path}.{src}[{i}]'` in `_schema_gen`. -/
def pyReprChar (c : Char) : List Char :=
  if c = '\\' then ['\\', '\\']
  else if c = '\'' then ['\\', '\'']
  else if c = '\n' then ['\\', 'n']
  else if c = '\r' then ['\\', 'r']
  else if c = '\t' then ['\\', 't']
  else [c]

mutual

/-- Model of Python `str()` / `repr()` of a decoded JSON value (`None`,
`True`/`False`, decimal ints, single-quoted strings, `[...]`/`{...}` with
`", "` separators). The `foreign` rendering is unspecified in the source;
any fixed token serves, since no claim depends on it. -/
def pyRepr : Value → String
  | .null => "None"
  | .bool b => if b then "True" else "False"
  | .num i => intStr i
  | .str s => "'" ++ String.mk (s.data.flatMap pyReprChar) ++ "'"
  | .arr items => "[" ++ String.intercalate ", " (pyReprList items) ++ "]"
  | .obj members => "\x7b" ++ String.intercalate ", " (pyReprObj members) ++ "\x7d"
  | .foreign => "<foreign>"

def pyReprList : List Value → List String
  | [] => []
  | v :: rest => pyRepr v :: pyReprList rest

def pyReprObj : List (String × Value) → List String
  | [] => []
  | (k, v) :: rest =>
      ("'" ++ String.mk (k.data.flatMap pyReprChar) ++ "': " ++ pyRepr v) :: pyReprObj rest

end

/-- Assembly of a JSON container from its already-rendered parts, following
Python's `json` encoder: empty containers close immediately; without an
indent the parts are joined by the item separator; with an indent each part
sits on its own line, indented one level deeper, and the closing bracket is
indented at the current level. -/
def joinParts (opener closer isep : String) (indent : Option Nat) (lvl : Nat)
    (parts : List String) : String :=
  match parts with
  | [] => opener ++ closer
  | _ =>
    match indent with
    | none => opener ++ String.intercalate isep parts ++ closer
    | some n =>
      let nl := "\n" ++ spaces (n * (lvl + 1))
      opener ++ nl ++ String.intercalate (isep ++ nl) parts ++
        "\n" ++ spaces (n * lvl) ++ closer

mutual

/-- Python `json.dumps(v, separators=(isep, ksep), indent=indent,
ensure_ascii=False)`; raises `TypeError` (the `error` case) exactly when a
non-serializable value occurs anywhere in `v`. -/
def dumpsV (isep ksep : String) (indent : Option Nat) (lvl : Nat) :
    Value → Except Unit String
  | .null => .ok "null"
  | .bool b => .ok (if b then "true" else "false")
  | .num i => .ok (intStr i)
  | .str s => .ok ("\"" ++ jsonEscape s ++ "\"")
  | .arr items =>
    match dumpsList isep ksep indent (lvl + 1) items with
    | .error e => .error e
    | .ok parts => .ok (joinParts "[" "]" isep indent lvl parts)
  | .obj members =>
    match dumpsObj isep ksep indent (lvl + 1) members with
    | .error e => .error e
    | .ok parts => .ok (joinParts "\x7b" "\x7d" isep indent lvl parts)
  | .foreign => .error ()

def dumpsList (isep ksep : String) (indent : Option Nat) (lvl : Nat) :
    List Value → Except Unit (List String)
  | [] => .ok []
  | v :: rest =>
    match dumpsV isep ksep indent lvl v with
    | .error e => .error e
    | .ok s =>
      match dumpsList isep ksep indent lvl rest with
      | .error e => .error e
      | .ok ss => .ok (s :: ss)

def dumpsObj (isep ksep : String) (indent : Option Nat) (lvl : Nat) :
    List (String × Value) → Except Unit (List String)
  | [] => .ok []
  | (k, v) :: rest =>
    match dumpsV isep ksep indent lvl v with
    | .error e => .error e
    | .ok s =>
      match dumpsObj isep ksep indent lvl rest with
      | .error e => .error e
      | .ok ss => .ok (("\"" ++ jsonEscape k ++ "\"" ++ ksep ++ s) :: ss)

end

mutual

/-- `Schema._schema_gen` (`lib.py` lines 142-207). The accumulating
`self._schema_list` is embedded as the returned line list; the `TypeError`
that `json.dumps` raises on a non-serializable scalar is the `error` case.
The source's `if not opts.mono: k = f'{k}'` and `k = f'{k}'` steps are
no-ops on strings and are therefore not represented. -/
def schema_gen (types : Bool) (src : Value) (path : String) :
    Except Unit (List String) :=
  match src with
  | .arr items =>
    if path = "" then genIdx types "." items 0
    else genIdx types (path ++ "." ++ pyRepr (.arr items)) items 0
  | .obj members => genObj types path members
  | sv =>
    match dumpsV ", " ": " none 0 sv with
    | .error e => .error e
    | .ok val => .ok [scalarLine types path val]

/-- The `for i, item in enumerate(...)` loops of `_schema_gen`: recurse into
each element with path `f'{base}[{i}]'`. -/
def genIdx (types : Bool) (base : String) (items : List Value) (i : Nat) :
    Except Unit (List String) :=
  match items with
  | [] => .ok []
  | item :: rest =>
    match schema_gen types item (base ++ "[" ++ Nat.repr i ++ "]") with
    | .error e => .error e
    | .ok ls =>
      match genIdx types base rest (i + 1) with
      | .error e => .error e
      | .ok ls2 => .ok (ls ++ ls2)

/-- The `for k, v in src.items()` loop of `_schema_gen`: array values recurse
with base `f'{path}.{k}'`, object values recurse with path `f'{path}.{k}'`,
and everything else emits one member line. -/
def genObj (types : Bool) (path : String) (members : List (String × Value)) :
    Except Unit (List String) :=
  match members with
  | [] => .ok []
  | (k, v) :: rest =>
    let here : Except Unit (List String) :=
      match v with
      | .arr items => genIdx types (path ++ "." ++ k) items 0
      | .obj ms => schema_gen types (.obj ms) (path ++ "." ++ k)
      | sv =>
        match dumpsV ", " ": " none 0 sv with
        | .error e => .error e
        | .ok val => .ok [memberLine types path k val]
    match here with
    | .error e => .error e
    | .ok ls =>
      match genObj types path rest with
      | .error e => .error e
      | .ok ls2 => .ok (ls ++ ls2)

end

/-- `Schema.create_schema`: run the generator and join the collected lines
with newlines (the subsequent buffer clearing is state hygiene only). -/
def create_schema (types : Bool) (data : Value) : Except Unit String :=
  match schema_gen types data "" with
  | .error e => .error e
  | .ok ls => .ok (String.intercalate "\n" ls)

/-- The two error kinds `Json.create_json` can raise: the explicit
`ValueError('Cannot print list of lists as lines. ...')` and the `TypeError`
coming out of `json.dumps` on a non-serializable value. -/
inductive JelloError where
  | unsupportedShape
  | nonSerializable
deriving DecidableEq

/-- The `for entry in data` loop of `create_json`'s lines mode (`lib.py`
lines 260-279), building `flat_list`. Each entry appends: `'null\n'` or
`'\n'` for `None` (by the `nulls` option); compact `json.dumps` plus `'\n'`
for dicts, booleans and numbers; the newline-replaced text, raw or wrapped
in quote characters, plus `'\n'` for strings. Any other entry matches no
branch of the source's `if`/`elif` chain and contributes nothing. -/
def lines_render (raw nulls : Bool) : List Value → Except Unit String
  | [] => .ok ""
  | entry :: rest =>
    let chunk : Except Unit String :=
      match entry with
      | .null => .ok ((if nulls then "null" else "") ++ "\n")
      | .obj _ | .bool _ | .num _ =>
        match dumpsV "," ":" none 0 entry with
        | .error e => .error e
        | .ok s => .ok (s ++ "\n")
      | .str s =>
        .ok ((if raw then replace_nl s else "\"" ++ replace_nl s ++ "\"") ++ "\n")
      | _ => .ok ""
    match chunk with
    | .error e => .error e
    | .ok c =>
      match lines_render raw nulls rest with
      | .error e => .error e
      | .ok restStr => .ok (c ++ restStr)

/-- `Json.create_json` (`lib.py` lines 233-303). Separators are `(',', ':')`
with no indent when `compact` or `lines` is set, else the defaults
`(',', ': ')` with a 2-space indent. Dict and (non-lines) list roots go
through `json.dumps`; a lines-mode list first rejects nested lists with
`ValueError`, then renders per element and strips the trailing whitespace;
`None`, booleans, numbers and strings are the naked single-item cases; any
remaining type forces a `TypeError` out of `json.dumps`. -/
def create_json (compact lines raw nulls : Bool) (data : Value) :
    Except JelloError String :=
  let ksep := if compact || lines then ":" else ": "
  let ind : Option Nat := if compact || lines then none else some 2
  match data with
  | .obj members =>
    match dumpsV "," ksep ind 0 (.obj members) with
    | .error _ => .error .nonSerializable
    | .ok s => .ok s
  | .arr items =>
    if !lines then
      match dumpsV "," ksep ind 0 (.arr items) with
      | .error _ => .error .nonSerializable
      | .ok s => .ok s
    else if items.any isArr then .error .unsupportedShape
    else
      match lines_render raw nulls items with
      | .error _ => .error .nonSerializable
      | .ok s => .ok (pyRstrip s)
  | .null => .ok (if nulls then "null" else "")
  | .bool b =>
    match dumpsV ", " ": " none 0 (.bool b) with
    | .error _ => .error .nonSerializable
    | .ok s => .ok s
  | .num i =>
    match dumpsV ", " ": " none 0 (.num i) with
    | .error _ => .error .nonSerializable
    | .ok s => .ok s
  | .str s =>
    .ok (if raw then replace_nl s else "\"" ++ replace_nl s ++ "\"")
  | .foreign => .error .nonSerializable

/-! ## General lemmas -/

/-- Discriminator for `Except`. -/
def isOkE {ε α : Type} : Except ε α → Bool
  | .ok _ => true
  | .error _ => false

theorem eq_error_of_isOkE_false {α : Type} {x : Except Unit α}
    (h : isOkE x = false) : x = .error () := by
  cases x with
  | error e => cases e; rfl
  | ok s => simp [isOkE] at h

theorem eq_ok_of_isOkE_true {ε α : Type} {x : Except ε α}
    (h : isOkE x = true) : ∃ s, x = .ok s := by
  cases x with
  | error e => simp [isOkE] at h
  | ok s => exact ⟨s, rfl⟩

mutual

theorem dumpsV_isOk (isep ksep : String) (ind : Option Nat) (lvl : Nat)
    (v : Value) : isOkE (dumpsV isep ksep ind lvl v) = serializable v := by
  match v with
  | .null => simp [dumpsV, serializable, isOkE]
  | .bool b => simp [dumpsV, serializable, isOkE]
  | .num i => simp [dumpsV, serializable, isOkE]
  | .str s => simp [dumpsV, serializable, isOkE]
  | .foreign => simp [dumpsV, serializable, isOkE]
  | .arr items =>
    have ih := dumpsList_isOk isep ksep ind (lvl + 1) items
    cases h : dumpsList isep ksep ind (lvl + 1) items with
    | error e => rw [h] at ih; simp [dumpsV, serializable, h, isOkE, ← ih]
    | ok parts => rw [h] at ih; simp [dumpsV, serializable, h, isOkE, ← ih]
  | .obj members =>
    have ih := dumpsObj_isOk isep ksep ind (lvl + 1) members
    cases h : dumpsObj isep ksep ind (lvl + 1) members with
    | error e => rw [h] at ih; simp [dumpsV, serializable, h, isOkE, ← ih]
    | ok parts => rw [h] at ih; simp [dumpsV, serializable, h, isOkE, ← ih]

theorem dumpsList_isOk (isep ksep : String) (ind : Option Nat) (lvl : Nat)
    (items : List Value) :
    isOkE (dumpsList isep ksep ind lvl items) = serializableList items := by
  match items with
  | [] => simp [dumpsList, serializableList, isOkE]
  | v :: rest =>
    have ihv := dumpsV_isOk isep ksep ind lvl v
    have ihr := dumpsList_isOk isep ksep ind lvl rest
    cases hv : dumpsV isep ksep ind lvl v with
    | error e =>
      rw [hv] at ihv
      simp [dumpsList, serializableList, hv, isOkE, ← ihv]
    | ok s =>
      rw [hv] at ihv
      cases hr : dumpsList isep ksep ind lvl rest with
      | error e =>
        rw [hr] at ihr
        simp [dumpsList, serializableList, hv, hr, isOkE, ← ihv, ← ihr]
      | ok ss =>
        rw [hr] at ihr
        simp [dumpsList, serializableList, hv, hr, isOkE, ← ihv, ← ihr]

theorem dumpsObj_isOk (isep ksep : String) (ind : Option Nat) (lvl : Nat)
    (members : List (String × Value)) :
    isOkE (dumpsObj isep ksep ind lvl members) = serializableObj members := by
  match members with
  | [] => simp [dumpsObj, serializableObj, isOkE]
  | (k, v) :: rest =>
    have ihv := dumpsV_isOk isep ksep ind lvl v
    have ihr := dumpsObj_isOk isep ksep ind lvl rest
    cases hv : dumpsV isep ksep ind lvl v with
    | error e =>
      rw [hv] at ihv
      simp [dumpsObj, serializableObj, hv, isOkE, ← ihv]
    | ok s =>
      rw [hv] at ihv
      cases hr : dumpsObj isep ksep ind lvl rest with
      | error e =>
        rw [hr] at ihr
        simp [dumpsObj, serializableObj, hv, hr, isOkE, ← ihv, ← ihr]
      | ok ss =>
        rw [hr] at ihr
        simp [dumpsObj, serializableObj, hv, hr, isOkE, ← ihv, ← ihr]

end

mutual

theorem schema_gen_length (types : Bool) (v : Value) (path : String)
    (h : serializable v = true) :
    ∃ ls, schema_gen types v path = .ok ls ∧ ls.length = countLeaves v := by
  match v with
  | .null => exact ⟨_, rfl, rfl⟩
  | .bool b => exact ⟨_, rfl, rfl⟩
  | .num i => exact ⟨_, rfl, rfl⟩
  | .str s => exact ⟨_, rfl, rfl⟩
  | .foreign => simp [serializable] at h
  | .arr items =>
    rw [serializable] at h
    by_cases hp : path = ""
    · obtain ⟨ls, h1, h2⟩ := genIdx_length types "." items 0 h
      exact ⟨ls, by simp [schema_gen, hp, h1], by simp [h2, countLeaves]⟩
    · obtain ⟨ls, h1, h2⟩ :=
        genIdx_length types (path ++ "." ++ pyRepr (.arr items)) items 0 h
      exact ⟨ls, by simp [schema_gen, hp, h1], by simp [h2, countLeaves]⟩
  | .obj members =>
    rw [serializable] at h
    obtain ⟨ls, h1, h2⟩ := genObj_length types path members h
    exact ⟨ls, by simp [schema_gen, h1], by simp [h2, countLeaves]⟩

theorem genIdx_length (types : Bool) (base : String) (items : List Value)
    (i : Nat) (h : serializableList items = true) :
    ∃ ls, genIdx types base items i = .ok ls ∧
      ls.length = countLeavesList items := by
  match items with
  | [] => exact ⟨[], rfl, rfl⟩
  | item :: rest =>
    rw [serializableList, Bool.and_eq_true] at h
    obtain ⟨ls1, h1, h2⟩ :=
      schema_gen_length types item (base ++ "[" ++ Nat.repr i ++ "]") h.1
    obtain ⟨ls2, h3, h4⟩ := genIdx_length types base rest (i + 1) h.2
    exact ⟨ls1 ++ ls2, by simp [genIdx, h1, h3],
      by simp [h2, h4, countLeavesList]⟩

theorem genObj_length (types : Bool) (path : String)
    (members : List (String × Value)) (h : serializableObj members = true) :
    ∃ ls, genObj types path members = .ok ls ∧
      ls.length = countLeavesObj members := by
  match members with
  | [] => exact ⟨[], rfl, rfl⟩
  | (k, v) :: rest =>
    rw [serializableObj, Bool.and_eq_true] at h
    obtain ⟨ls2, h3, h4⟩ := genObj_length types path rest h.2
    have hv := h.1
    match v with
    | .null =>
      exact ⟨[memberLine types path k "null"] ++ ls2,
        by simp [genObj, dumpsV, h3], by simp [h4, countLeaves, countLeavesObj, Nat.add_comm]⟩
    | .bool b =>
      exact ⟨[memberLine types path k (if b then "true" else "false")] ++ ls2,
        by simp [genObj, dumpsV, h3], by simp [h4, countLeaves, countLeavesObj, Nat.add_comm]⟩
    | .num i =>
      exact ⟨[memberLine types path k (intStr i)] ++ ls2,
        by simp [genObj, dumpsV, h3], by simp [h4, countLeaves, countLeavesObj, Nat.add_comm]⟩
    | .str s =>
      exact ⟨[memberLine types path k ("\"" ++ jsonEscape s ++ "\"")] ++ ls2,
        by simp [genObj, dumpsV, h3], by simp [h4, countLeaves, countLeavesObj, Nat.add_comm]⟩
    | .foreign => simp [serializable] at hv
    | .arr items =>
      rw [serializable] at hv
      obtain ⟨ls1, h1, h2⟩ := genIdx_length types (path ++ "." ++ k) items 0 hv
      exact ⟨ls1 ++ ls2, by simp [genObj, h1, h3],
        by simp [h2, h4, countLeaves, countLeavesObj]⟩
    | .obj ms =>
      obtain ⟨ls1, h1, h2⟩ := schema_gen_length types (.obj ms) (path ++ "." ++ k) hv
      exact ⟨ls1 ++ ls2, by simp [genObj, h1, h3],
        by simp [h2, h4, countLeavesObj]⟩

end

mutual

theorem schema_gen_shape (types : Bool) (v : Value) (path : String)
    (ls : List String) (h : schema_gen types v path = .ok ls) :
    ∀ l ∈ ls, (∃ p k val, l = memberLine types p k val) ∨
      (∃ p val, l = scalarLine types p val) := by
  match v with
  | .null =>
    simp only [schema_gen, dumpsV] at h
    cases h
    intro l hl
    rw [List.mem_singleton] at hl
    exact Or.inr ⟨path, "null", hl⟩
  | .bool b =>
    simp only [schema_gen, dumpsV] at h
    cases h
    intro l hl
    rw [List.mem_singleton] at hl
    exact Or.inr ⟨path, _, hl⟩
  | .num i =>
    simp only [schema_gen, dumpsV] at h
    cases h
    intro l hl
    rw [List.mem_singleton] at hl
    exact Or.inr ⟨path, _, hl⟩
  | .str s =>
    simp only [schema_gen, dumpsV] at h
    cases h
    intro l hl
    rw [List.mem_singleton] at hl
    exact Or.inr ⟨path, _, hl⟩
  | .foreign => simp [schema_gen, dumpsV] at h
  | .arr items =>
    rw [schema_gen] at h
    by_cases hp : path = ""
    · rw [if_pos hp] at h
      exact genIdx_shape types "." items 0 ls h
    · rw [if_neg hp] at h
      exact genIdx_shape types (path ++ "." ++ pyRepr (.arr items)) items 0 ls h
  | .obj members =>
    rw [schema_gen] at h
    exact genObj_shape types path members ls h

theorem genIdx_shape (types : Bool) (base : String) (items : List Value)
    (i : Nat) (ls : List String) (h : genIdx types base items i = .ok ls) :
    ∀ l ∈ ls, (∃ p k val, l = memberLine types p k val) ∨
      (∃ p val, l = scalarLine types p val) := by
  match items with
  | [] =>
    rw [genIdx] at h
    cases h
    intro l hl
    simp at hl
  | item :: rest =>
    rw [genIdx] at h
    cases h1 : schema_gen types item (base ++ "[" ++ Nat.repr i ++ "]") with
    | error e => rw [h1] at h; cases h
    | ok ls1 =>
      rw [h1] at h
      cases h3 : genIdx types base rest (i + 1) with
      | error e => rw [h3] at h; cases h
      | ok ls2 =>
        rw [h3] at h
        cases h
        intro l hl
        rcases List.mem_append.mp hl with hl1 | hl2
        · exact schema_gen_shape types item _ ls1 h1 l hl1
        · exact genIdx_shape types base rest (i + 1) ls2 h3 l hl2

theorem genObj_shape (types : Bool) (path : String)
    (members : List (String × Value)) (ls : List String)
    (h : genObj types path members = .ok ls) :
    ∀ l ∈ ls, (∃ p k val, l = memberLine types p k val) ∨
      (∃ p val, l = scalarLine types p val) := by
  match members with
  | [] =>
    rw [genObj] at h
    cases h
    intro l hl
    simp at hl
  | (k, v) :: rest =>
    match v with
    | .null =>
      simp only [genObj, dumpsV] at h
      cases h3 : genObj types path rest with
      | error e => rw [h3] at h; cases h
      | ok ls2 =>
        rw [h3] at h
        cases h
        intro l hl
        rcases List.mem_append.mp hl with hl1 | hl2
        · rw [List.mem_singleton] at hl1
          exact Or.inl ⟨path, k, _, hl1⟩
        · exact genObj_shape types path rest ls2 h3 l hl2
    | .bool b =>
      simp only [genObj, dumpsV] at h
      cases h3 : genObj types path rest with
      | error e => rw [h3] at h; cases h
      | ok ls2 =>
        rw [h3] at h
        cases h
        intro l hl
        rcases List.mem_append.mp hl with hl1 | hl2
        · rw [List.mem_singleton] at hl1
          exact Or.inl ⟨path, k, _, hl1⟩
        · exact genObj_shape types path rest ls2 h3 l hl2
    | .num i =>
      simp only [genObj, dumpsV] at h
      cases h3 : genObj types path rest with
      | error e => rw [h3] at h; cases h
      | ok ls2 =>
        rw [h3] at h
        cases h
        intro l hl
        rcases List.mem_append.mp hl with hl1 | hl2
        · rw [List.mem_singleton] at hl1
          exact Or.inl ⟨path, k, _, hl1⟩
        · exact genObj_shape types path rest ls2 h3 l hl2
    | .str s =>
      simp only [genObj, dumpsV] at h
      cases h3 : genObj types path rest with
      | error e => rw [h3] at h; cases h
      | ok ls2 =>
        rw [h3] at h
        cases h
        intro l hl
        rcases List.mem_append.mp hl with hl1 | hl2
        · rw [List.mem_singleton] at hl1
          exact Or.inl ⟨path, k, _, hl1⟩
        · exact genObj_shape types path rest ls2 h3 l hl2
    | .foreign => simp [genObj, dumpsV] at h
    | .arr items =>
      simp only [genObj] at h
      cases h1 : genIdx types (path ++ "." ++ k) items 0 with
      | error e => rw [h1] at h; cases h
      | ok ls1 =>
        rw [h1] at h
        cases h3 : genObj types path rest with
        | error e => rw [h3] at h; cases h
        | ok ls2 =>
          rw [h3] at h
          cases h
          intro l hl
          rcases List.mem_append.mp hl with hl1 | hl2
          · exact genIdx_shape types (path ++ "." ++ k) items 0 ls1 h1 l hl1
          · exact genObj_shape types path rest ls2 h3 l hl2
    | .obj ms =>
      simp only [genObj] at h
      cases h1 : schema_gen types (.obj ms) (path ++ "." ++ k) with
      | error e => rw [h1] at h; cases h
      | ok ls1 =>
        rw [h1] at h
        cases h3 : genObj types path rest with
        | error e => rw [h3] at h; cases h
        | ok ls2 =>
          rw [h3] at h
          cases h
          intro l hl
          rcases List.mem_append.mp hl with hl1 | hl2
          · exact schema_gen_shape types (.obj ms) (path ++ "." ++ k) ls1 h1 l hl1
          · exact genObj_shape types path rest ls2 h3 l hl2

end

@[simp] theorem spaces_length (n : Nat) : (spaces n).length = n := by
  simp [spaces, String.length]

/-- Any rendered literal whose first character is not `t`, `f`, `n`, a dot or
a digit falls through every branch of the type classification. -/
theorem val_type_head (c : Char) (l : List Char) (h1 : c ≠ 't') (h2 : c ≠ 'f')
    (h3 : c ≠ 'n') (h4 : c ≠ '.') (h5 : c.isDigit = false) :
    val_type (String.mk (c :: l)) = "// (string)" := by
  have hne : ∀ (d : Char) (m : List Char), c ≠ d →
      String.mk (c :: l) ≠ String.mk (d :: m) := by
    intro d m hcd hc
    rw [String.ext_iff] at hc
    exact hcd (List.cons.inj hc).1
  have hd : pyIsdigit (removeFirstDot (String.mk (c :: l))) = false := by
    rw [removeFirstDot]
    show pyIsdigit (String.mk (removeFirstDotAux (c :: l))) = false
    rw [removeFirstDotAux, if_neg h4]
    simp [pyIsdigit, h5]
  rw [val_type, if_neg, if_neg, if_neg]
  · rw [hd]; simp
  · simp [hne 'n' ['u', 'l', 'l'] h3]
  · simp [hne 't' ['r', 'u', 'e'] h1, hne 'f' ['a', 'l', 's', 'e'] h2]

/-- In lines mode, an entry that matches no branch of the `if`/`elif` chain
(in particular a non-serializable entry) contributes nothing. -/
theorem lines_render_skips_foreign (raw nulls : Bool) (pre post : List Value) :
    lines_render raw nulls (pre ++ Value.foreign :: post) =
      lines_render raw nulls (pre ++ post) := by
  induction pre with
  | nil =>
    show lines_render raw nulls (Value.foreign :: post) = lines_render raw nulls post
    simp only [lines_render]
    cases h : lines_render raw nulls post <;> simp [h, String.empty_append]
  | cons p pre ih =>
    show lines_render raw nulls (p :: (pre ++ Value.foreign :: post)) =
      lines_render raw nulls (p :: (pre ++ post))
    cases p <;> simp only [lines_render, ih]

/-! ## Claims -/

/-- C7: for the input `{"a": {"b": 1, "c": [true, null]}}` with type comments
enabled, flatten yields exactly three lines, in order: `.a.b = 1;` annotated
`// (number)`, then `.a.c[0] = true;` annotated `// (boolean)`, then
`.a.c[1] = null;` annotated `// (null)` (each padded to the fixed comment
column). -/
theorem claim_c7 :
    schema_gen true
      (Value.obj [("a", Value.obj [("b", Value.num 1),
        ("c", Value.arr [Value.bool true, Value.null])])]) "" =
      .ok [".a.b = 1;" ++ spaces 54 ++ "// (number)",
           ".a.c[0] = true;" ++ spaces 47 ++ "// (boolean)",
           ".a.c[1] = null;" ++ spaces 50 ++ "// (null)"] := by
  rfl

/-- C4: in lines mode with an Array root, `create_json` fails with the
unsupported-shape error (`ValueError`) precisely when some element is itself
an Array, and `[1,2,3]` renders as the newline-joined text `1\n2\n3`. -/
theorem claim_c4 :
    (∀ (compact raw nulls : Bool) (l : List Value),
      (create_json compact true raw nulls (Value.arr l) =
        .error JelloError.unsupportedShape) ↔ l.any isArr = true)
    ∧ create_json false true false false
        (Value.arr [Value.num 1, Value.num 2, Value.num 3]) = .ok "1\n2\n3" := by
  refine ⟨?_, rfl⟩
  intro compact raw nulls l
  by_cases h : l.any isArr
  · simp [create_json, h]
  · simp only [create_json, Bool.not_true, if_false, h, if_true, ite_false, ite_true]
    cases hr : lines_render raw nulls l <;> simp [h, hr]

/-- C6: with type comments off (in fact, for any flag setting), flattening a
JSON-compatible value emits exactly one schema line per leaf (scalar or
null) of the tree, and an empty root Array or Object flattens to the empty
string. -/
theorem claim_c6 :
    (∀ v : Value, serializable v = true →
      ∃ ls, schema_gen false v "" = .ok ls ∧ ls.length = countLeaves v)
    ∧ create_schema false (Value.arr []) = .ok ""
    ∧ create_schema false (Value.obj []) = .ok "" :=
  ⟨fun v h => schema_gen_length false v "" h, rfl, rfl⟩

theorem claim_c6_witness :
    ∃ ls, schema_gen false
        (Value.obj [("a", Value.arr [Value.num 1, Value.null])]) "" = .ok ls ∧
      ls.length = countLeaves
        (Value.obj [("a", Value.arr [Value.num 1, Value.null])]) :=
  claim_c6.1 (Value.obj [("a", Value.arr [Value.num 1, Value.null])]) (by decide)

/-- C10: a negative number renders with a leading minus sign, so the
digit-only test on the rendered literal fails and the type comment is
`// (string)`, not `// (number)`. -/
theorem claim_c10 : ∀ i : Int, i < 0 →
    dumpsV ", " ": " none 0 (Value.num i) = .ok (intStr i) ∧
    val_type (intStr i) = "// (string)" := by
  intro i hi
  refine ⟨rfl, ?_⟩
  rw [intStr, if_pos hi]
  show val_type (String.mk ('-' :: (Nat.toDigits 10 i.natAbs))) = "// (string)"
  exact val_type_head '-' _ (by decide) (by decide) (by decide) (by decide) (by decide)

theorem claim_c10_witness :
    dumpsV ", " ": " none 0 (Value.num (-5)) = .ok (intStr (-5)) ∧
    val_type (intStr (-5)) = "// (string)" :=
  claim_c10 (-5) (by decide)

/-- C2 (amended): a root String has every literal newline replaced by the
two-character sequence backslash-n; with `raw` set the replaced text is
returned unquoted, otherwise it is wrapped in double-quote characters
*without* escaping interior quotes or backslashes (so the result need not be
a valid JSON string literal). The same per-element rule holds in lines
mode. -/
theorem claim_c2 :
    (∀ (compact lines raw nulls : Bool) (s : String),
      create_json compact lines raw nulls (Value.str s) =
        .ok (if raw then replace_nl s else "\"" ++ replace_nl s ++ "\""))
    ∧ (∀ (raw nulls : Bool) (s : String) (rest : List Value),
      lines_render raw nulls (Value.str s :: rest) =
        (lines_render raw nulls rest).map
          (fun t =>
            ((if raw then replace_nl s else "\"" ++ replace_nl s ++ "\"") ++ "\n") ++ t)) := by
  constructor
  · intro compact lines raw nulls s
    rfl
  · intro raw nulls s rest
    simp only [lines_render]
    cases h : lines_render raw nulls rest <;> simp [h, Except.map]

/-- C2 counterexample: the claim asserts the non-raw root String output is a
valid JSON string literal with interior quotes escaped; on `a"b` the code
produces `"a"b"` (plain quote wrapping), which differs from the JSON
encoding `"a\"b"`. -/
theorem claim_c2_cex :
    create_json false false false false (Value.str "a\"b") = .ok "\"a\"b\"" ∧
    "\"a\"b\"" ≠ "\"" ++ jsonEscape "a\"b" ++ "\"" := by
  exact ⟨rfl, by decide⟩

/-- C5 (amended): the type comment is computed from the rendered literal
text with the stated precedence (true/false, then null, then
digits-after-removing-one-dot, then string); but because a String value
renders as a *quoted* literal, a String whose content is `true`, `false`,
`null` or all-digits-with-one-dot is still classified `// (string)` — the
claimed misclassification quirk does not occur. -/
theorem claim_c5 :
    (∀ val : String, val_type val =
      if val = "true" ∨ val = "false" then "// (boolean)"
      else if val = "null" then "// (null)"
      else if pyIsdigit (removeFirstDot val) = true then "// (number)"
      else "// (string)")
    ∧ (∀ s : String, val_type ("\"" ++ jsonEscape s ++ "\"") = "// (string)") := by
  constructor
  · intro val
    rw [val_type]
    by_cases h1 : val = "true" <;> by_cases h2 : val = "false" <;>
      simp [h1, h2]
  · intro s
    show val_type (String.mk ('"' :: (s.data.flatMap escapeChar ++ ['"']))) =
      "// (string)"
    exact val_type_head '"' _ (by decide) (by decide) (by decide) (by decide)
      (by decide)

/-- C5 counterexample: the String value `"true"` renders as the quoted
literal `"true"` (6 characters), so its schema line is annotated
`// (string)`, not the `// (boolean)` the claimed quirk predicts. -/
theorem claim_c5_cex :
    create_schema true (Value.obj [("k", Value.str "true")]) =
      .ok (".k = \"true\";" ++ spaces 51 ++ "// (string)") ∧
    val_type "\"true\"" ≠ "// (boolean)" := by
  exact ⟨rfl, by decide⟩

/-- C8: with type comments on, whenever the length sum
`len(path) + len(key) + len(literal) + len(comment)` is below 70 the line is
padded so the comment is right-aligned at one fixed column (total line
length 74 for both object-member and terminal/root scalar lines); at 70 or
more the separator before the comment is exactly two spaces. -/
theorem claim_c8 : ∀ (path k val : String),
    ((path.length + k.length + val.length + (val_type val).length < 70 →
        (memberLine true path k val).length = 74) ∧
     (70 ≤ path.length + k.length + val.length + (val_type val).length →
        memberLine true path k val =
          path ++ "." ++ k ++ " = " ++ val ++ ";" ++ "  " ++ val_type val)) ∧
    (((if path = "" then "." else path).length + val.length +
          (val_type val).length < 70 →
        (scalarLine true path val).length = 74) ∧
     (70 ≤ (if path = "" then "." else path).length + val.length +
          (val_type val).length →
        scalarLine true path val =
          (if path = "" then "." else path) ++ " = " ++ val ++ ";" ++ "  " ++
            val_type val)) := by
  intro path k val
  have hdot : (".").length = 1 := rfl
  have heq : (" = ").length = 3 := rfl
  have hsemi : (";").length = 1 := rfl
  refine ⟨⟨?_, ?_⟩, ?_, ?_⟩
  · intro h
    rw [memberLine]
    simp only [if_true, if_pos h, String.length_append, spaces_length]
    omega
  · intro h
    rw [memberLine]
    simp only [if_true, if_neg (by omega : ¬(path.length + k.length +
      val.length + (val_type val).length < 70))]
  · intro h
    rw [scalarLine]
    simp only [if_true, if_pos h, String.length_append, spaces_length]
    omega
  · intro h
    rw [scalarLine]
    simp only [if_true, if_neg (by omega : ¬((if path = "" then "." else path).length +
      val.length + (val_type val).length < 70))]

theorem claim_c8_witness :
    (memberLine true ".a" "b" "1").length = 74 ∧
    (scalarLine true ".a.c[0]" "true").length = 74 ∧
    memberLine true "" "k" (spaces 80) =
      "" ++ "." ++ "k" ++ " = " ++ spaces 80 ++ ";" ++ "  " ++ val_type (spaces 80) ∧
    scalarLine true "" (spaces 80) =
      (if ("" : String) = "" then "." else "") ++ " = " ++ spaces 80 ++ ";" ++ "  " ++
        val_type (spaces 80) :=
  ⟨(claim_c8 ".a" "b" "1").1.1 (by decide),
   (claim_c8 ".a.c[0]" "" "true").2.1 (by decide),
   (claim_c8 "" "k" (spaces 80)).1.2 (by decide),
   (claim_c8 "" "b" (spaces 80)).2.2 (by decide)⟩

/-- C9: in lines mode over a flat Array, each element renders independently
in order — `null` gives the line `null` when `nulls` is set and an empty
line otherwise; booleans, numbers and objects give their compact JSON
encoding on one line; the lines are newline-joined and trailing whitespace
is trimmed only from the very end (interior empty lines survive). -/
theorem claim_c9 :
    (∀ (raw nulls : Bool) (rest : List Value),
      lines_render raw nulls (Value.null :: rest) =
        (lines_render raw nulls rest).map
          (fun t => ((if nulls then "null" else "") ++ "\n") ++ t))
    ∧ (∀ (raw nulls b : Bool) (rest : List Value),
      lines_render raw nulls (Value.bool b :: rest) =
        (lines_render raw nulls rest).map
          (fun t => ((if b then "true" else "false") ++ "\n") ++ t))
    ∧ (∀ (raw nulls : Bool) (i : Int) (rest : List Value),
      lines_render raw nulls (Value.num i :: rest) =
        (lines_render raw nulls rest).map (fun t => (intStr i ++ "\n") ++ t))
    ∧ (∀ (raw nulls : Bool) (ms : List (String × Value)) (rest : List Value)
        (s : String), dumpsV "," ":" none 0 (Value.obj ms) = .ok s →
      lines_render raw nulls (Value.obj ms :: rest) =
        (lines_render raw nulls rest).map (fun t => (s ++ "\n") ++ t))
    ∧ create_json false true false false
        (Value.arr [Value.num 1, Value.null, Value.num 2]) = .ok "1\n\n2"
    ∧ create_json false true false true
        (Value.arr [Value.null, Value.null]) = .ok "null\nnull"
    ∧ create_json false true false false
        (Value.arr [Value.num 1, Value.null]) = .ok "1"
    ∧ create_json false true false false
        (Value.arr [Value.obj [("a", Value.str "x\ny")]]) = .ok "\x7b\"a\":\"x\\ny\"\x7d" := by
  refine ⟨?_, ?_, ?_, ?_, rfl, rfl, rfl, rfl⟩
  · intro raw nulls rest
    simp only [lines_render]
    cases h : lines_render raw nulls rest <;> simp [h, Except.map]
  · intro raw nulls b rest
    simp only [lines_render, dumpsV]
    cases h : lines_render raw nulls rest <;> simp [h, Except.map]
  · intro raw nulls i rest
    simp only [lines_render, dumpsV]
    cases h : lines_render raw nulls rest <;> simp [h, Except.map]
  · intro raw nulls ms rest s hs
    simp only [lines_render, hs]
    cases h : lines_render raw nulls rest <;> simp [h, Except.map]

theorem claim_c9_witness :
    lines_render false false [Value.obj [("a", Value.num 1)]] =
      (lines_render false false []).map (fun t => ("\x7b\"a\":1\x7d" ++ "\n") ++ t) :=
  claim_c9.2.2.2.1 false false [("a", Value.num 1)] [] "\x7b\"a\":1\x7d" rfl

/-- C1 (amended): outside lines mode, any value containing a component
beyond the JSON value model makes `create_json` fail with the
non-serializable error (`TypeError`); in lines mode, however, a
non-serializable *element of the root array* matches no branch of the
per-element chain and is silently dropped — removing it from the array does
not change the output at all. -/
theorem claim_c1 :
    (∀ (compact raw nulls : Bool) (v : Value), serializable v = false →
      create_json compact false raw nulls v = .error JelloError.nonSerializable)
    ∧ (∀ (compact raw nulls : Bool) (pre post : List Value),
      create_json compact true raw nulls
          (Value.arr (pre ++ Value.foreign :: post)) =
        create_json compact true raw nulls (Value.arr (pre ++ post))) := by
  constructor
  · intro compact raw nulls v hser
    cases v with
    | null => simp [serializable] at hser
    | bool b => simp [serializable] at hser
    | num i => simp [serializable] at hser
    | str s => simp [serializable] at hser
    | foreign => rfl
    | obj ms =>
      rw [serializable] at hser
      cases compact with
      | true =>
        have hb : isOkE (dumpsV "," ":" none 0 (Value.obj ms)) = false := by
          rw [dumpsV_isOk, serializable]; exact hser
        have he := eq_error_of_isOkE_false hb
        simp [create_json, he]
      | false =>
        have hb : isOkE (dumpsV "," ": " (some 2) 0 (Value.obj ms)) = false := by
          rw [dumpsV_isOk, serializable]; exact hser
        have he := eq_error_of_isOkE_false hb
        simp [create_json, he]
    | arr items =>
      rw [serializable] at hser
      cases compact with
      | true =>
        have hb : isOkE (dumpsV "," ":" none 0 (Value.arr items)) = false := by
          rw [dumpsV_isOk, serializable]; exact hser
        have he := eq_error_of_isOkE_false hb
        simp [create_json, he]
      | false =>
        have hb : isOkE (dumpsV "," ": " (some 2) 0 (Value.arr items)) = false := by
          rw [dumpsV_isOk, serializable]; exact hser
        have he := eq_error_of_isOkE_false hb
        simp [create_json, he]
  · intro compact raw nulls pre post
    have hany : (pre ++ Value.foreign :: post).any isArr =
        (pre ++ post).any isArr := by
      simp [List.any_append, isArr]
    simp only [create_json, Bool.or_true, Bool.not_true, hany,
      lines_render_skips_foreign]
    simp

theorem claim_c1_witness :
    create_json false false false false Value.foreign =
      .error JelloError.nonSerializable :=
  claim_c1.1 false false false Value.foreign (by decide)

/-- C1 counterexample: the claim says a non-serializable element of the root
array in lines mode causes a failure; the code instead skips it — the
single-element array holding a foreign value renders as the empty string. -/
theorem claim_c1_cex :
    create_json false true false false (Value.arr [Value.foreign]) = .ok "" := by
  rfl

/-- C3 (amended): with type comments off, the two line builders have
kind-specific tails — an object-member line (the `lib.py` 166-185 branch) is
exactly `{path}.{key} = {literal};` with nothing after the semicolon, while
a terminal/root scalar line (the 187-207 branch) always carries at least one
space of alignment padding after the semicolon, because the padding
assignment sits outside the `opts.types` conditional — and every line
flatten produces comes from one of these two builders. -/
theorem claim_c3 :
    (∀ (path k val : String),
      memberLine false path k val = path ++ "." ++ k ++ " = " ++ val ++ ";")
    ∧ (∀ (path val : String), ∃ n, 0 < n ∧
      scalarLine false path val =
        (if path = "" then "." else path) ++ " = " ++ val ++ ";" ++ spaces n)
    ∧ (∀ (v : Value) (path : String) (ls : List String) (l : String),
      schema_gen false v path = .ok ls → l ∈ ls →
      (∃ p k val, l = memberLine false p k val) ∨
      (∃ p val, l = scalarLine false p val)) := by
  refine ⟨?_, ?_, ?_⟩
  · intro path k val
    rw [memberLine]
    simp [String.append_empty]
  · intro path val
    rw [scalarLine]
    simp only [if_false, Bool.false_eq_true, ite_false, String.length_empty,
      Nat.add_zero, String.append_empty]
    by_cases hlt : (if path = "" then "." else path).length + val.length < 70
    · exact ⟨70 - ((if path = "" then "." else path).length + val.length),
        by omega, by rw [if_pos hlt]⟩
    · exact ⟨2, by omega, by rw [if_neg hlt]; rfl⟩
  · exact fun v path ls l h hl => schema_gen_shape false v path ls h l hl

theorem claim_c3_witness :
    memberLine false ".a" "b" "1" = ".a" ++ "." ++ "b" ++ " = " ++ "1" ++ ";" ∧
    (∃ n, 0 < n ∧ scalarLine false "" "5" =
      (if ("" : String) = "" then "." else "") ++ " = " ++ "5" ++ ";" ++ spaces n) ∧
    ((∃ p k val, ". = 5;" ++ spaces 68 = memberLine false p k val) ∨
     (∃ p val, ". = 5;" ++ spaces 68 = scalarLine false p val)) :=
  ⟨claim_c3.1 ".a" "b" "1", claim_c3.2.1 "" "5",
   claim_c3.2.2 (Value.num 5) "" [". = 5;" ++ spaces 68] (". = 5;" ++ spaces 68)
     rfl (by simp)⟩

/-- C3 counterexample: the claim says that with type comments off no
alignment padding is emitted on terminal/root scalar lines; flattening the
bare scalar `5` instead yields `. = 5;` followed by 68 spaces of padding,
so the line does not end at the semicolon. -/
theorem claim_c3_cex :
    create_schema false (Value.num 5) = .ok (". = 5;" ++ spaces 68) ∧
    ". = 5;" ++ spaces 68 ≠ ". = 5;" := by
  exact ⟨rfl, by decide⟩

end Jello
